import Mathlib

/-!
# Verification of the frida-java class factory (`src/lib/class-factory.js`)

A shallow embedding of the core of `ClassFactory`: the primitive type-adapter
registry (`getPrimitiveType`), the type lookup (`getTypeFromJniTypename`),
the overload resolver and method dispatcher (`makeMethodFromOverloads`,
`makeMethodDispatcher`, `canInvokeWith`), the class cache (`use`,
`ensureClass`, `cast`), the hooking engine (`replaceArtImplementation`,
`replaceDalvikImplementation`) and `dispose`.

Host (JavaScript) values are modelled by the inductive `JVal`; JS object
identity is modelled with explicit allocation counters (every `new`/object
literal takes a fresh numeric id, and `===` on objects is equality of ids).
JNI references are numeric ids mapped to underlying Java object ids by an
environment table.  Native memory is a function `Nat → Nat` (byte-addressed
for the 56-byte Dalvik `Method` struct, word-addressed for the `ArtMethod`
record).  JNI itself, the VM symbol table (`Api`) and reflective calls are
external collaborators; their outputs enter the model as oracle parameters.
-/

namespace FridaJava

/-! ## Host value model

`JVal` is the universe of JavaScript values the marshaling layer inspects:
booleans, numbers (JS numbers, modelled as rationals — the adapters under
test only compare them and test integrality), `Int64` instances, strings
(as lists of UTF-16 code units, which is what `length`/`charCodeAt` see),
`undefined`, `null`, wrapped Java instances (objects carrying a `$handle`
property) and JS arrays. -/
inductive JVal where
  | vbool (b : Bool)
  | vnum (q : ℚ)
  | vint64 (n : ℤ)
  | vstr (units : List ℕ)
  | vundef
  | vnull
  | vinst (objId : ℕ) (handle : Option ℕ)
  | varr (elems : List JVal)

/-- JS truthiness (`!!v` / `v ? _ : _`): `false`, `0`, the empty string,
`undefined` and `null` are falsy; objects and arrays are truthy. -/
def jsTruthy : JVal → Bool
  | .vbool b => b
  | .vnum q => decide (q ≠ 0)
  | .vint64 _ => true
  | .vstr u => decide (u ≠ [])
  | .vundef => false
  | .vnull => false
  | .vinst _ _ => true
  | .varr _ => true

/-- JS `ToUint16`, as applied by `String.fromCharCode`: an integral number is
reduced mod 2^16.  (The adapters only apply it to naturals below 2^16.) -/
def jsToUint16 (q : ℚ) : ℕ :=
  if q.den = 1 then (q.num % 65536).toNat else 0

/-- JS `Number.isInteger`. -/
def jsIsInteger (q : ℚ) : Bool := decide (q.den = 1)

/-! ## Primitive type adapters (`getPrimitiveType`)

Each descriptor carries the raw wire type, the `size`/`byteSize` fields, the
compatibility predicate and the optional `fromJni`/`toJni` converters,
exactly as built by the `switch` in `getPrimitiveType`.  The JS converters
are total functions; branches that the source never reaches on compatible
input (`charCodeAt` on a non-string, …) are given harmless junk values. -/
structure PrimDesc where
  type : String
  size : ℕ
  byteSize : ℕ
  isCompatible : JVal → Bool
  fromJni : Option (JVal → JVal) := none
  toJni : Option (JVal → JVal) := none

/-- `case 'boolean'`: compatible with JS booleans; `fromJni: v => !!v`,
`toJni: v => v ? 1 : 0`. -/
def booleanPrim : PrimDesc where
  type := "uint8"
  size := 1
  byteSize := 1
  isCompatible := fun v => match v with
    | .vbool _ => true
    | _ => false
  fromJni := some fun v => .vbool (jsTruthy v)
  toJni := some fun v => .vnum (if jsTruthy v then 1 else 0)

/-- `case 'byte'`: `Number.isInteger(v) && v >= -128 && v <= 127`;
no converters. -/
def bytePrim : PrimDesc where
  type := "int8"
  size := 1
  byteSize := 1
  isCompatible := fun v => match v with
    | .vnum q => jsIsInteger q && decide ((-128 : ℚ) ≤ q) && decide (q ≤ 127)
    | _ => false

/-- `case 'char'`: a one-code-unit string whose code is in `[0, 65535]`;
`fromJni: c => String.fromCharCode(c)`, `toJni: s => s.charCodeAt(0)`. -/
def charPrim : PrimDesc where
  type := "uint16"
  size := 1
  byteSize := 2
  isCompatible := fun v => match v with
    | .vstr [c] => decide (c ≤ 65535)
    | _ => false
  fromJni := some fun v => match v with
    | .vnum q => .vstr [jsToUint16 q]
    | _ => .vstr []
  toJni := some fun v => match v with
    | .vstr (c :: _) => .vnum (c : ℚ)
    | _ => .vnum 0

/-- `case 'short'`: integer in `[-32768, 32767]`; no converters. -/
def shortPrim : PrimDesc where
  type := "int16"
  size := 1
  byteSize := 2
  isCompatible := fun v => match v with
    | .vnum q => jsIsInteger q && decide ((-32768 : ℚ) ≤ q) && decide (q ≤ 32767)
    | _ => false

/-- `case 'int'`: integer in `[-2147483648, 2147483647]`; no converters. -/
def intPrim : PrimDesc where
  type := "int32"
  size := 1
  byteSize := 4
  isCompatible := fun v => match v with
    | .vnum q => jsIsInteger q && decide ((-2147483648 : ℚ) ≤ q) &&
        decide (q ≤ 2147483647)
    | _ => false

/-- `case 'long'`: any JS number, or an `Int64` instance; no converters. -/
def longPrim : PrimDesc where
  type := "int64"
  size := 2
  byteSize := 8
  isCompatible := fun v => match v with
    | .vnum _ => true
    | .vint64 _ => true
    | _ => false

/-- `case 'float'`: any JS number; no converters. -/
def floatPrim : PrimDesc where
  type := "float"
  size := 1
  byteSize := 4
  isCompatible := fun v => match v with
    | .vnum _ => true
    | _ => false

/-- `case 'double'`: any JS number; no converters. -/
def doublePrim : PrimDesc where
  type := "double"
  size := 2
  byteSize := 8
  isCompatible := fun v => match v with
    | .vnum _ => true
    | _ => false

/-- `case 'void'`: only `undefined`; no converters. -/
def voidPrim : PrimDesc where
  type := "void"
  size := 0
  byteSize := 0
  isCompatible := fun v => match v with
    | .vundef => true
    | _ => false

/-- The `switch (type)` of `getPrimitiveType`; `undefined` (`none`) for any
other name. -/
def getPrimitiveType : String → Option PrimDesc
  | "boolean" => some booleanPrim
  | "byte" => some bytePrim
  | "char" => some charPrim
  | "short" => some shortPrim
  | "int" => some intPrim
  | "long" => some longPrim
  | "float" => some floatPrim
  | "double" => some doublePrim
  | "void" => some voidPrim
  | _ => none

/-- Apply an optional converter; where the source defines no `fromJni`/`toJni`
the raw value passes through unchanged. -/
def applyConv (f : Option (JVal → JVal)) (v : JVal) : JVal :=
  match f with
  | some g => g v
  | none => v

/-- Marshal a host value out through `toJni` and back through `fromJni`
(converters composed where defined, identity where absent). -/
def primRoundTrip (p : PrimDesc) (v : JVal) : JVal :=
  applyConv p.fromJni (applyConv p.toJni v)

/-! ## Type lookup (`getTypeFromJniTypename`)

Descriptors are determined by the type name, so the descriptor *shape* is
embedded as the first-order `TypeKind`; `typeCompat` gives each kind's
`isCompatible` predicate.  Every call of `getTypeFromJniTypename` builds a
fresh result object (`const result = { className: typename }` plus a copy of
the inner descriptor's keys); object identity is modelled by the `id` field,
drawn from an allocation counter threaded through the lookup. -/

/-- The shape of a type descriptor: a primitive (by name), an array with an
element descriptor, or an object (reference) type with a class name. -/
inductive TypeKind where
  | prim (name : String)
  | array (elem : TypeKind)
  | object (className : String)
deriving DecidableEq

/-- `typename[0] === 'L' && typename[typename.length - 1] === ';'` stripping,
performed on reference-type names before `getObjectType` is consulted. -/
def stripLSemi (cs : List Char) : List Char :=
  if cs.head? = some 'L' ∧ cs.getLast? = some ';' then (cs.drop 1).dropLast
  else cs

/-- The body of `getTypeFromJniTypename` at the level of descriptor shapes:
try `getPrimitiveType`; names starting with `[` go to `getArrayType`, here
inlined — its `switch` has the eight primitive-array cases and a default
that strips one `[` and recurses for the element type (the
`'Unsupported type here'` throw of that default fires only when the name
does not start with `[`, which cannot happen on this path, so it has no
arm here); any other name is `L…;`-stripped and resolved by
`getObjectType`, which accepts every name. -/
def lookupKind : List Char → Except String TypeKind
  | '[' :: rest =>
    if (getPrimitiveType (String.mk ('[' :: rest))).isSome then
      .ok (.prim (String.mk ('[' :: rest)))
    else
      match rest with
      | ['Z'] => .ok (.array (.prim "boolean"))
      | ['B'] => .ok (.array (.prim "byte"))
      | ['C'] => .ok (.array (.prim "char"))
      | ['D'] => .ok (.array (.prim "double"))
      | ['F'] => .ok (.array (.prim "float"))
      | ['I'] => .ok (.array (.prim "int"))
      | ['J'] => .ok (.array (.prim "long"))
      | ['S'] => .ok (.array (.prim "short"))
      | _ => (lookupKind rest).map .array
  | cs =>
    if (getPrimitiveType (String.mk cs)).isSome then .ok (.prim (String.mk cs))
    else .ok (.object (String.mk (stripLSemi cs)))

/-- A materialized type descriptor: `id` is the JS object identity of the
result object, `className` the `className` key, `size` the wire word size,
and `kind` determines the remaining (behavioral) keys. -/
structure TypeDesc where
  id : ℕ
  className : String
  size : ℕ
  kind : TypeKind
deriving DecidableEq

/-- The `className` key of the result: the name as given for primitives and
arrays, the `L…;`-stripped name for reference types (the source mutates
`typename` before building the result object). -/
def topClassName (typename : String) : String :=
  if (getPrimitiveType typename).isSome then typename
  else if typename.toList.head? = some '[' then typename
  else String.mk (stripLSemi typename.toList)

/-- The `size` key: primitives carry their own size, arrays and objects are
one pointer-sized word. -/
def kindSize : TypeKind → ℕ
  | .prim p => match getPrimitiveType p with
    | some d => d.size
    | none => 1
  | .array _ => 1
  | .object _ => 1

/-- `getTypeFromJniTypename(typename, unbox)`.  `alloc` is the JS allocation
counter: the returned descriptor object is fresh (`id := alloc`).  Inner
descriptor objects (the primitive/array/object literal whose keys are copied
into the result, and recursively-built element descriptors) are also fresh
objects, collapsed here into the same single allocation step since only the
result object escapes.  The `unbox` flag only modulates the reference-type
`fromJni` (string auto-unboxing), which is outside this model. -/
def getTypeFromJniTypename (typename : String) (alloc : ℕ) :
    Except String (TypeDesc × ℕ) :=
  (lookupKind typename.toList).map fun k =>
    ({ id := alloc, className := topClassName typename, size := kindSize k,
       kind := k }, alloc + 1)

/-- The `isCompatible` predicate attached to each descriptor shape:
* primitives: the registry predicate;
* arrays: `null`, or an object with a `length` property all of whose
  elements are compatible with the element type (primitive and object
  arrays use the same shape of check);
* objects: `null`; a host string iff the class is `java.lang.String` or
  `java.lang.CharSequence`; any object carrying a `$handle` property. -/
def typeCompat : TypeKind → JVal → Bool
  | .prim p => fun v =>
      match getPrimitiveType p with
      | some d => d.isCompatible v
      | none => false
  | .array k => fun v =>
      match v with
      | .vnull => true
      | .varr elems => elems.all (typeCompat k)
      | _ => false
  | .object cn => fun v =>
      match v with
      | .vnull => true
      | .vstr _ => decide (cn = "java.lang.CharSequence" ∨ cn = "java.lang.String")
      | .vinst _ _ => true
      | _ => false

/-! ## Method descriptors and the dispatcher (`makeMethodDispatcher`) -/

/-- `CONSTRUCTOR_METHOD` / `STATIC_METHOD` / `INSTANCE_METHOD`. -/
inductive MType where
  | constructorM
  | staticM
  | instanceM
deriving DecidableEq

/-- What backs a method descriptor: a JNI method id (`fromReflectedMethod`),
or the synthetic `defaultValueOf` closure. -/
inductive MethodImpl where
  | jni (methodId : ℕ)
  | syntheticValueOf
deriving DecidableEq

/-- A resolved method overload as produced by `makeMethod` (or the synthetic
`defaultValueOf`): holder-name, kind, backing implementation, return type and
ordered argument types. -/
structure MethodDesc where
  name : String
  mtype : MType
  impl : MethodImpl
  retType : TypeDesc
  argTypes : List TypeDesc
deriving DecidableEq

/-- `canInvokeWith`: arity must match, then every argument type's
`isCompatible` must hold positionally.  (The synthetic `defaultValueOf`
defines its own `canInvokeWith` as `args.length === 0`, which coincides with
this definition at `argTypes = []`.) -/
def canInvokeWith (m : MethodDesc) (args : List JVal) : Bool :=
  args.length == m.argTypes.length &&
    (m.argTypes.zip args).all fun ta => typeCompat ta.1.kind ta.2

/-- The arity bucket `candidates[args.length]` of `makeMethodDispatcher`:
the overloads with that arity, in registration order (`forEach`/`push`
preserves order). -/
def methodsWithArity (methods : List MethodDesc) (n : ℕ) : List MethodDesc :=
  methods.filter fun m => m.argTypes.length == n

/-- Outcome of a dispatcher call: the chosen overload is applied, a literal
string is returned (the class-view `toString` special case), or an `Error`
is thrown with the given message. -/
inductive CallOutcome where
  | invoked (m : MethodDesc)
  | literal (s : String)
  | error (msg : String)
deriving DecidableEq

/-- The dispatcher body `f` of `makeMethodDispatcher(name, methods)`:
look up the arity bucket (absent bucket → arity error); take the first
overload in the bucket for which `canInvokeWith(arguments)` holds; if it is
an instance method and the receiver is a class-only view (`$handle === null`)
then `toString` returns the literal `'<' + className + '>'` and anything else
is an error; otherwise the overload is applied; if no overload in the bucket
is compatible, a signature error is thrown.  `wrapperName` is
`this.$classWrapper.__name__`. -/
def dispatchCall (name : String) (wrapperName : String)
    (methods : List MethodDesc) (isInstance : Bool) (args : List JVal) :
    CallOutcome :=
  let group := methodsWithArity methods args.length
  if group.isEmpty then
    .error (name ++ ": argument count does not match any overload")
  else
    match group.find? (fun m => canInvokeWith m args) with
    | some m =>
        if m.mtype = .instanceM ∧ isInstance = false then
          if name = "toString" then .literal ("<" ++ wrapperName ++ ">")
          else .error (name ++ ": cannot call instance method without an instance")
        else .invoked m
    | none => .error (name ++ ": argument types do not match any overload")

/-! ## Overload resolution (`makeMethodFromOverloads`, `makeConstructor`) -/

/-- The body of the synthetic overload: `function defaultValueOf () { return
this; }`. -/
def defaultValueOfBody (self : JVal) : JVal := self

/-- The descriptor of the synthetic zero-argument instance `valueOf`:
instance kind, no arguments, declared return type `getTypeFromJniTypename
('int')`.  (The descriptor's `id` is immaterial to every property proved
below; it is pinned to 0.) -/
def defaultValueOfDesc : MethodDesc where
  name := "valueOf"
  mtype := .instanceM
  impl := .syntheticValueOf
  retType := { id := 0, className := "int", size := 1, kind := .prim "int" }
  argTypes := []

/-- The `valueOf` special case at the end of `makeMethodFromOverloads`: when
the group is named `valueOf` and no overload is a zero-argument instance
method, the synthetic `defaultValueOf` is appended. -/
def addDefaultValueOf (name : String) (methods : List MethodDesc) :
    List MethodDesc :=
  if name = "valueOf" then
    let hasDefaultValueOf := methods.any fun m =>
      m.mtype == .instanceM && m.argTypes.length == 0
    if hasDefaultValueOf then methods else methods ++ [defaultValueOfDesc]
  else methods

/-- The reflective data `makeMethodFromOverloads` extracts for one overload
handle.  `modifiers` is `Method.getModifiers`; the type-name fields are the
results of the `getGenericReturnType`/`getGenericParameterTypes` +
`getTypeName` JNI round trips, with `none` standing for a pending Java
exception thrown while resolving them (caught by the surrounding
`try { … } catch (e) { return null; }`).  For a varargs method the last
parameter name is already the `getArrayTypeName` form. -/
structure OverloadInfo where
  methodId : ℕ
  modifiers : ℕ
  retTypeName : Option String
  argTypeNames : Option (List String)
deriving DecidableEq

/-- `java.lang.reflect.Modifier.STATIC`. -/
def ModifierSTATIC : ℕ := 8

/-- An overload is supported when both its return type and its parameter
types resolved without a pending exception. -/
def supportedOverload (o : OverloadInfo) : Bool :=
  o.retTypeName.isSome && o.argTypeNames.isSome

/-- Look up a list of type names in order, threading the allocation
counter. -/
def lookupTypeList : List String → ℕ → Except String (List TypeDesc × ℕ)
  | [], alloc => .ok ([], alloc)
  | n :: rest, alloc =>
    match getTypeFromJniTypename n alloc with
    | .error e => .error e
    | .ok (d, a1) =>
      match lookupTypeList rest a1 with
      | .error e => .error e
      | .ok (ds, a2) => .ok (d :: ds, a2)

/-- One step of the `overloads.map(...)` in `makeMethodFromOverloads`:
classify static/instance from the modifiers, resolve the return type, then
the argument types; any resolution failure yields `null` (`none`), making
the overload unsupported.  (Allocations made before a failure are discarded
together with the partial descriptor.) -/
def makeMethodDesc (name : String) (o : OverloadInfo) (alloc : ℕ) :
    Option (MethodDesc × ℕ) :=
  match o.retTypeName with
  | none => none
  | some rt =>
    match getTypeFromJniTypename rt alloc with
    | .error _ => none
    | .ok (retD, a1) =>
      match o.argTypeNames with
      | none => none
      | some ans =>
        match lookupTypeList ans a1 with
        | .error _ => none
        | .ok (argDs, a2) =>
          some ({ name := name,
                  mtype := if o.modifiers &&& ModifierSTATIC ≠ 0 then .staticM
                           else .instanceM,
                  impl := .jni o.methodId,
                  retType := retD, argTypes := argDs }, a2)

/-- `overloads.map(...).filter(m => m !== null)`: resolve each overload in
order, dropping the unsupported ones, threading allocations. -/
def buildMethods (name : String) : List OverloadInfo → ℕ → List MethodDesc × ℕ
  | [], alloc => ([], alloc)
  | o :: rest, alloc =>
    match makeMethodDesc name o alloc with
    | some (m, a1) =>
      let (ms, a2) := buildMethods name rest a1
      (m :: ms, a2)
    | none => buildMethods name rest alloc

/-- `makeMethodFromOverloads(name, overloads, env)`: build the supported
overloads, throw `'No supported overloads'` when none survive, apply the
`valueOf` special case, and hand the list to `makeMethodDispatcher`.  The
result is the dispatcher's overload list. -/
def makeMethodFromOverloads (name : String) (os : List OverloadInfo)
    (alloc : ℕ) : Except String (List MethodDesc × ℕ) :=
  let (methods, a1) := buildMethods name os alloc
  if methods.isEmpty then .error "No supported overloads"
  else .ok (addDefaultValueOf name methods, a1)

/-- `basename(className)`: `className.slice(className.lastIndexOf('.') + 1)`
— the final dot-separated component. -/
def basename (className : String) : String :=
  String.mk ((className.toList.reverse.takeWhile fun c => c ≠ '.').reverse)

/-- The reflective data `makeConstructor` extracts per declared constructor:
the method id and the generic parameter-type names, `none` when resolving
them threw (the inner `catch (e) { continue; }`). -/
structure CtorInfo where
  methodId : ℕ
  argTypeNames : Option (List String)
deriving DecidableEq

/-- One constructor's two descriptors: the `allocAndInit` form (kind
`CONSTRUCTOR_METHOD`, returning the class type) and the `initOnly` form
(kind `INSTANCE_METHOD`, returning `void`). -/
def makeCtorDescs (simpleName : String) (retD voidD : TypeDesc)
    (c : CtorInfo) (alloc : ℕ) : Option ((MethodDesc × MethodDesc) × ℕ) :=
  match c.argTypeNames with
  | none => none
  | some ans =>
    match lookupTypeList ans alloc with
    | .error _ => none
    | .ok (argDs, a1) =>
      some (({ name := simpleName, mtype := .constructorM,
               impl := .jni c.methodId, retType := retD, argTypes := argDs },
             { name := simpleName, mtype := .instanceM,
               impl := .jni c.methodId, retType := voidD, argTypes := argDs }),
            a1)

/-- The constructor loop of `makeConstructor`: resolve each declared
constructor in order, skipping (`continue`) any whose parameter types fail
to resolve. -/
def buildCtorPairs (simpleName : String) (retD voidD : TypeDesc) :
    List CtorInfo → ℕ → List (MethodDesc × MethodDesc) × ℕ
  | [], alloc => ([], alloc)
  | c :: rest, alloc =>
    match makeCtorDescs simpleName retD voidD c alloc with
    | some (p, a1) =>
      let (ps, a2) := buildCtorPairs simpleName retD voidD rest a1
      (p :: ps, a2)
    | none => buildCtorPairs simpleName retD voidD rest alloc

/-- `makeConstructor(classHandle, env)`: resolve the class type and `void`,
walk the declared constructors skipping any whose parameter types fail to
resolve, and throw `'no supported overloads'` when no constructor survives;
otherwise both dispatcher lists (`allocAndInit`, `initOnly`) are built. -/
def makeConstructor (className : String) (ctors : List CtorInfo) (alloc : ℕ) :
    Except String ((List MethodDesc × List MethodDesc) × ℕ) :=
  match getTypeFromJniTypename className alloc with
  | .error e => .error e
  | .ok (retD, a1) =>
    match getTypeFromJniTypename "void" a1 with
    | .error e => .error e
    | .ok (voidD, a2) =>
      let (pairs, a3) := buildCtorPairs (basename className) retD voidD ctors a2
      if pairs.isEmpty then .error "no supported overloads"
      else .ok ((pairs.map Prod.fst, pairs.map Prod.snd), a3)

/-! ## JNI environment and the class cache (`use`, `ensureClass`, `cast`)

JNI references are numeric ids; the environment's reference table maps a
live reference to the id of the underlying Java object.  `NewGlobalRef`
(and every other reference-producing call) hands out a *fresh* reference to
the same underlying object; local and global references live in one table
here since the claims under test never distinguish them. -/

structure EnvState where
  nextRef : ℕ
  refs : List (ℕ × ℕ)

/-- The underlying Java object a reference designates (0 for a dangling or
null reference). -/
def targetOf (e : EnvState) (r : ℕ) : ℕ :=
  ((e.refs.lookup r).getD 0)

/-- Allocate a fresh reference to the given object id. -/
def newRefTo (e : EnvState) (obj : ℕ) : ℕ × EnvState :=
  (e.nextRef, { nextRef := e.nextRef + 1, refs := (e.nextRef, obj) :: e.refs })

/-- `env.newGlobalRef(h)`: a fresh reference to `h`'s underlying object. -/
def newGlobalRef (e : EnvState) (h : ℕ) : ℕ × EnvState :=
  newRefTo e (targetOf e h)

/-- `env.deleteLocalRef` / `env.deleteGlobalRef`: drop the reference. -/
def deleteRef (e : EnvState) (h : ℕ) : EnvState :=
  { e with refs := e.refs.filter fun p => p.1 ≠ h }

/-- Allocate one global reference per object, in order (the
`addMethodsAndFields` loops over declared methods/fields). -/
def addGlobalRefs (e : EnvState) (objs : List ℕ) : List ℕ × EnvState :=
  objs.foldl (fun acc o =>
    let (r, e1) := newRefTo acc.2 o
    (acc.1 ++ [r], e1)) ([], e)

/-- A well-formed reference table: every live reference id is below the
allocation counter, so fresh references never shadow live ones. -/
def EnvWF (e : EnvState) : Prop :=
  ∀ p ∈ e.refs, p.1 < e.nextRef

/-- The Java side, as visible through JNI: class-of and class-name queries,
the superclass chain, `FindClass` (by slash-separated name), `IsInstanceOf`,
and the declared method/field objects of a class. -/
structure JavaWorld where
  classNameOf : ℕ → String
  superOf : ℕ → Option ℕ
  classObjOf : String → Option ℕ
  isInstanceOf : ℕ → ℕ → Bool
  declaredMethods : ℕ → List ℕ
  declaredFields : ℕ → List ℕ

/-- `className.replace(/\./g, '/')`. -/
def jsReplaceDots (s : String) : String :=
  String.mk (s.toList.map fun c => if c = '.' then '/' else c)

/-- The class wrapper constructed by `ensureClass`'s `eval`: `kid` is the JS
identity of the constructor function, `handleRef` is `klass.__handle__`,
`methodRefs`/`fieldRefs` are `klass.__methods__`/`klass.__fields__`. -/
structure KlassRec where
  kid : ℕ
  simpleName : String
  fullName : String
  handleRef : ℕ
  methodRefs : List ℕ
  fieldRefs : List ℕ
  superKid : Option ℕ
deriving DecidableEq

/-- A wrapper instance `new C(classHandle, handle)`: `iid` is its JS object
identity; `$classWrapper` is the constructor, `$classHandle` and `$handle`
are the global references taken in the constructor body.  (The constructor
also registers a `WeakRef` destructor token; finalization is external.) -/
structure ClassInstance where
  iid : ℕ
  classWrapper : KlassRec
  classHandle : ℕ
  handle : Option ℕ
deriving DecidableEq

/-- The factory's mutable state: the reference table, the `classes` cache,
the optional user class loader (modelled by its `loadClass` outcome: the
underlying `Class` object id, or failure), and the JS allocation counter. -/
structure FacState where
  env : EnvState
  classes : List (String × KlassRec)
  loader : Option (String → Option ℕ)
  nextJsId : ℕ

/-- The constructor body produced by `ensureClass`'s `eval`:
`this.$classWrapper = klass; this.$classHandle = env.newGlobalRef(classHandle);
this.$handle = (handle !== null) ? env.newGlobalRef(handle) : null;`. -/
def newInstance (C : KlassRec) (handle : Option ℕ) (s : FacState) :
    ClassInstance × FacState :=
  let (chRef, e1) := newGlobalRef s.env C.handleRef
  match handle with
  | some h =>
      let (hRef, e2) := newGlobalRef e1 h
      ({ iid := s.nextJsId, classWrapper := C, classHandle := chRef,
         handle := some hRef },
       { s with env := e2, nextJsId := s.nextJsId + 1 })
  | none =>
      ({ iid := s.nextJsId, classWrapper := C, classHandle := chRef,
         handle := none },
       { s with env := e1, nextJsId := s.nextJsId + 1 })

/-- The tail of `ensureClass` after the superclass has been ensured: `eval`
a fresh constructor function (fresh JS id), cache it under `name`, and run
`initializeClass`, which pins `klass.__handle__` and the global references
to every declared method and field object (`addMethodsAndFields`). -/
def finishClass (w : JavaWorld) (s : FacState) (name : String) (classRef : ℕ)
    (superKid : Option ℕ) : KlassRec × FacState :=
  let target := targetOf s.env classRef
  let kid := s.nextJsId
  let (handleRef, e1) := newRefTo s.env target
  let (methodRefs, e2) := addGlobalRefs e1 (w.declaredMethods target)
  let (fieldRefs, e3) := addGlobalRefs e2 (w.declaredFields target)
  let krec : KlassRec :=
    { kid := kid, simpleName := basename name, fullName := name,
      handleRef := handleRef, methodRefs := methodRefs,
      fieldRefs := fieldRefs, superKid := superKid }
  (krec,
   { s with
     env := e3
     classes := (name, krec) :: s.classes
     nextJsId := kid + 1 })

/-- The body of `ensureClass(classHandle, cachedName)`: resolve the name,
return the cached wrapper when present, otherwise ensure the superclass
wrapper through `recurse` (releasing the superclass local reference
afterwards) and build and cache a fresh wrapper. -/
def ensureClassBody (w : JavaWorld)
    (recurse : FacState → ℕ → Option String →
      Except String (KlassRec × FacState))
    (s : FacState) (classRef : ℕ) (cachedName : Option String) :
    Except String (KlassRec × FacState) :=
  let target := targetOf s.env classRef
  let name := match cachedName with
    | some n => n
    | none => w.classNameOf target
  match s.classes.lookup name with
  | some k => .ok (k, s)
  | none =>
    match w.superOf target with
    | some supObj =>
      let r := newRefTo s.env supObj
      match recurse { s with env := r.2 } r.1 none with
      | .error e => .error e
      | .ok (supK, s1) =>
        let s2 := { s1 with env := deleteRef s1.env r.1 }
        .ok (finishClass w s2 name classRef (some supK.kid))
    | none => .ok (finishClass w s name classRef none)

/-- `ensureClass`, with `fuel` bounding the superclass recursion depth (the
JVM guarantees an acyclic, finite superclass chain). -/
def ensureClass (w : JavaWorld) :
    ℕ → FacState → ℕ → Option String → Except String (KlassRec × FacState)
  | 0 => ensureClassBody w fun _ _ _ =>
      .error "superclass chain exceeds recursion budget"
  | fuel + 1 => ensureClassBody w (ensureClass w fuel)

/-- `use(className)`: return the cached wrapper class if present, otherwise
resolve the `Class` through the user loader (when installed) or through
`env.findClass` on the slash-form name (releasing the local reference), and
construct the wrapper via `ensureClass`.  Either way the call returns
`new C(C.__handle__, null)` — a freshly constructed class-view instance. -/
def use (w : JavaWorld) (fuel : ℕ) (s : FacState) (className : String) :
    Except String (ClassInstance × FacState) :=
  match s.classes.lookup className with
  | some C => .ok (newInstance C none s)
  | none =>
    match s.loader with
    | some loadClass =>
      match loadClass className with
      | none => .error ("ClassNotFound: " ++ className)
      | some clsObj =>
        let (h, e1) := newRefTo s.env clsObj
        match ensureClass w fuel { s with env := e1 } h (some className) with
        | .error e => .error e
        | .ok (C, s1) => .ok (newInstance C none s1)
    | none =>
      match w.classObjOf (jsReplaceDots className) with
      | none => .error ("ClassNotFound: " ++ className)
      | some clsObj =>
        let (h, e1) := newRefTo s.env clsObj
        match ensureClass w fuel { s with env := e1 } h (some className) with
        | .error e => .error e
        | .ok (C, s1) =>
          let s2 := { s1 with env := deleteRef s1.env h }
          .ok (newInstance C none s2)

/-- The first argument of `cast`: either a raw JNI handle, or a wrapper
object (which carries a `$handle` own-property; a class-only view's
`$handle` is `null`, which reaches JNI as the null handle 0). -/
inductive CastArg where
  | rawHandle (h : ℕ)
  | wrapped (i : ClassInstance)

/-- `cast(obj, klass)`: take `obj.$handle` when the argument is a wrapper,
else the argument itself; when `IsInstanceOf(handle, klass.$classHandle)`
holds, return `new C(C.__handle__, handle)` for `C = klass.$classWrapper`,
otherwise throw the bad-cast error. -/
def cast (w : JavaWorld) (s : FacState) (arg : CastArg)
    (klassView : ClassInstance) : Except String (ClassInstance × FacState) :=
  let handle := match arg with
    | .rawHandle h => h
    | .wrapped i => i.handle.getD 0
  if w.isInstanceOf (targetOf s.env handle)
      (targetOf s.env klassView.classHandle) then
    .ok (newInstance klassView.classWrapper (some handle) s)
  else
    .error "BadCast: cast between these classes is not possible"

/-! ## The hooking engine

Native memory is a function `ℕ → ℕ`.  For the ART strategy addresses are in
word units and the four `ArtMethod` fields occupy one cell each (the
`accessFlags` cell holds a 32-bit word, the others pointers); for the
Dalvik strategy addresses are in byte units and multi-byte writes are
little-endian, so that byte-identity of the whole 56-byte `Method` struct
can be stated. -/

/-- Store one cell. -/
def writeWord (mem : ℕ → ℕ) (a v : ℕ) : ℕ → ℕ :=
  fun x => if x = a then v else mem x

def kAccNative : ℕ := 0x0100
def kAccFastNative : ℕ := 0x00080000

/-- The `ArtMethod` field offsets supplied by `getArtMethodSpec` (flavor- and
version-dependent). -/
structure ArtMethodOffsets where
  jniCode : ℕ
  accessFlags : ℕ
  quickCode : ℕ
  interpreterCode : ℕ

/-- The four words of an `ArtMethod` record that the hook touches. -/
structure ArtMethodInfo where
  jniCode : ℕ
  accessFlags : ℕ
  quickCode : ℕ
  interpreterCode : ℕ
deriving DecidableEq

/-- `fetchMethod(methodId)`: read the four words. -/
def fetchMethod (off : ArtMethodOffsets) (mem : ℕ → ℕ) (mid : ℕ) :
    ArtMethodInfo where
  jniCode := mem (mid + off.jniCode)
  accessFlags := mem (mid + off.accessFlags)
  quickCode := mem (mid + off.quickCode)
  interpreterCode := mem (mid + off.interpreterCode)

/-- `patchMethod(methodId, patches)`: write the four words, in the source's
reduction order `jniCode`, `accessFlags`, `quickCode`, `interpreterCode`. -/
def patchMethod (off : ArtMethodOffsets) (mem : ℕ → ℕ) (mid : ℕ)
    (patches : ArtMethodInfo) : ℕ → ℕ :=
  writeWord
    (writeWord
      (writeWord
        (writeWord mem (mid + off.jniCode) patches.jniCode)
        (mid + off.accessFlags) patches.accessFlags)
      (mid + off.quickCode) patches.quickCode)
    (mid + off.interpreterCode) patches.interpreterCode

/-- The external `Api`/spec inputs of the ART strategy: the `ArtMethod`
offsets, the resolved `runtime → classLinker → quickGenericJniTrampoline`
chain (`none` when any link is null or the specs are unknown, in which case
installation throws), and `artInterpreterToCompiledCodeBridge`. -/
structure ArtApi where
  off : ArtMethodOffsets
  quickGenericJniTrampoline : Option ℕ
  artInterpreterToCompiledCodeBridge : ℕ

/-- The per-method closure state of `makeMethod` used by the ART strategy:
`artOriginalMethodInfo` is the pre-hook snapshot, `implementation` the
installed `NativeCallback` (by its address). -/
structure ArtMethodHook where
  methodId : ℕ
  artOriginalMethodInfo : Option ArtMethodInfo
  implementation : Option ℕ
deriving DecidableEq

/-- JS `Set.prototype.add`: insertion-ordered, no duplicates. -/
def jsSetAdd (pm : List ℕ) (x : ℕ) : List ℕ :=
  if x ∈ pm then pm else pm ++ [x]

/-- JS `Set.prototype.delete`. -/
def jsSetDelete (pm : List ℕ) (x : ℕ) : List ℕ :=
  pm.filter fun y => y ≠ x

/-- Reading a numeric property of a JS `Set` whose elements are `pm`:
`size` is the element count; a `Set` has no `length` (nor `pop`) property,
so reading any other name yields `undefined` (`none`). -/
def jsSetGetNumProp (pm : List ℕ) : String → Option ℕ
  | "size" => some pm.length
  | _ => none

/-- JS `>` with a possibly-`undefined` left operand: `undefined` coerces to
`NaN`, and every `NaN` comparison is `false`. -/
def jsGtNum : Option ℕ → ℕ → Bool
  | some a, b => decide (b < a)
  | none, _ => false

/-- The mutable context `replaceArtImplementation` operates on: the process
memory, this method's closure state, and the factory-wide `patchedMethods`
set (as the list of member method-wrapper ids in insertion order). -/
structure HookCtx where
  mem : ℕ → ℕ
  hook : ArtMethodHook
  patchedMethods : List ℕ

/-- `replaceArtImplementation(fn)` for the method wrapper whose JS identity
is `wid`.  `fn = some cb` models installing a replacement whose compiled
`NativeCallback` lives at `cb` (`implement(f, fn)`); `fn = none` models
clearing.  Returns the new context and, on the install path, the error
thrown when no usable `quickGenericJniTrampoline` copy exists (note that on
that path the snapshot and `implementation` assignments have already
happened when the error is thrown). -/
def replaceArtImplementation (api : ArtApi) (wid : ℕ) (fn : Option ℕ)
    (c : HookCtx) : HookCtx × Option String :=
  match fn, c.hook.artOriginalMethodInfo with
  | none, none => (c, none)
  | _, _ =>
    let orig := match c.hook.artOriginalMethodInfo with
      | none => fetchMethod api.off c.mem c.hook.methodId
      | some o => o
    let hook1 := { c.hook with artOriginalMethodInfo := some orig }
    match fn with
    | some cb =>
      match api.quickGenericJniTrampoline with
      | none =>
        ({ c with hook := { hook1 with implementation := some cb } },
         some "Cannot find the correct copy of quick generic jni trampoline")
      | some tramp =>
        let af := c.mem (c.hook.methodId + api.off.accessFlags) |||
          kAccNative ||| kAccFastNative
        let mem1 := patchMethod api.off c.mem c.hook.methodId
          { jniCode := cb, accessFlags := af, quickCode := tramp,
            interpreterCode := api.artInterpreterToCompiledCodeBridge }
        ({ mem := mem1, hook := { hook1 with implementation := some cb },
           patchedMethods := jsSetAdd c.patchedMethods wid }, none)
    | none =>
      let pm1 := jsSetDelete c.patchedMethods wid
      let mem1 := patchMethod api.off c.mem c.hook.methodId orig
      ({ mem := mem1, hook := { hook1 with implementation := none },
         patchedMethods := pm1 }, none)

/-! ### Dalvik strategy (byte-level) -/

def DVM_METHOD_SIZE : ℕ := 56
def DVM_METHOD_OFFSET_ACCESS_FLAGS : ℕ := 4
def DVM_METHOD_OFFSET_REGISTERS_SIZE : ℕ := 10
def DVM_METHOD_OFFSET_OUTS_SIZE : ℕ := 12
def DVM_METHOD_OFFSET_INS_SIZE : ℕ := 14
def DVM_METHOD_OFFSET_JNI_ARG_INFO : ℕ := 36

/-- `Memory.writeU16`, little-endian bytes. -/
def writeU16le (mem : ℕ → ℕ) (a v : ℕ) : ℕ → ℕ :=
  writeWord (writeWord mem a (v % 256)) (a + 1) (v / 256 % 256)

/-- `Memory.writeU32`, little-endian bytes. -/
def writeU32le (mem : ℕ → ℕ) (a v : ℕ) : ℕ → ℕ :=
  writeWord
    (writeWord
      (writeWord
        (writeWord mem a (v % 256))
        (a + 1) (v / 256 % 256))
      (a + 2) (v / 65536 % 256))
    (a + 3) (v / 16777216 % 256)

/-- `Memory.readU32`, little-endian bytes. -/
def readU32le (mem : ℕ → ℕ) (a : ℕ) : ℕ :=
  mem a + 256 * mem (a + 1) + 65536 * mem (a + 2) + 16777216 * mem (a + 3)

/-- `Memory.dup(address, n)`: the `n` bytes starting at `address`, copied
into a freshly allocated buffer (buffers live outside `mem`). -/
def memDup (mem : ℕ → ℕ) (a n : ℕ) : List ℕ :=
  (List.range n).map fun i => mem (a + i)

/-- `Memory.copy(dst, srcBuffer, srcBuffer.length)`. -/
def memCopyFromList (mem : ℕ → ℕ) (a : ℕ) (src : List ℕ) : ℕ → ℕ :=
  fun x => if a ≤ x ∧ x < a + src.length then src.getD (x - a) 0 else mem x

/-- The per-method closure state used by the Dalvik strategy:
`dalvikOriginalMethod` and `dalvikTargetMethodId` are the two `Memory.dup`
clones of the 56-byte `Method` struct (snapshot for restoration, and the
private copy later placed in the shadow vtable). -/
structure DalvikHook where
  methodId : ℕ
  dalvikOriginalMethod : Option (List ℕ)
  dalvikTargetMethod : Option (List ℕ)
  implementation : Option ℕ
deriving DecidableEq

/-- `argsSize` as computed by `replaceDalvikImplementation`: the sum of the
argument types' wire sizes, plus one register for `this` on instance
methods. -/
def dalvikArgsSize (argTypes : List TypeDesc) (mtype : MType) : ℕ :=
  (argTypes.map fun t => t.size).sum + (if mtype = .instanceM then 1 else 0)

/-- The mutable context of the Dalvik strategy. -/
structure DalvikCtx where
  mem : ℕ → ℕ
  hook : DalvikHook
  patchedMethods : List ℕ

/-- `replaceDalvikImplementation(fn)`: on the first install, clone the live
struct twice; installing sets `kAccNative` in `accessFlags`, makes
`registersSize = insSize = argsSize`, `outsSize = 0` and
`jniArgInfo = 0x80000000`, then installs the trampoline via the VM's
`dvmUseJNIBridge` (a VM-internal call with no effect on the struct bytes
modelled here) and adds the wrapper to `patchedMethods`; clearing copies
the snapshot back over the live struct. -/
def replaceDalvikImplementation (wid : ℕ) (fn : Option ℕ)
    (argTypes : List TypeDesc) (mtype : MType) (c : DalvikCtx) : DalvikCtx :=
  match fn, c.hook.dalvikOriginalMethod with
  | none, none => c
  | _, _ =>
    let mid := c.hook.methodId
    let hook1 := match c.hook.dalvikOriginalMethod with
      | none =>
        { c.hook with
          dalvikOriginalMethod := some (memDup c.mem mid DVM_METHOD_SIZE)
          dalvikTargetMethod := some (memDup c.mem mid DVM_METHOD_SIZE) }
      | some _ => c.hook
    match fn with
    | some cb =>
      let argsSize := dalvikArgsSize argTypes mtype
      let accessFlags :=
        readU32le c.mem (mid + DVM_METHOD_OFFSET_ACCESS_FLAGS) ||| kAccNative
      let mem1 := writeU32le c.mem (mid + DVM_METHOD_OFFSET_ACCESS_FLAGS)
        accessFlags
      let mem2 := writeU16le mem1 (mid + DVM_METHOD_OFFSET_REGISTERS_SIZE)
        argsSize
      let mem3 := writeU16le mem2 (mid + DVM_METHOD_OFFSET_OUTS_SIZE) 0
      let mem4 := writeU16le mem3 (mid + DVM_METHOD_OFFSET_INS_SIZE) argsSize
      let mem5 := writeU32le mem4 (mid + DVM_METHOD_OFFSET_JNI_ARG_INFO)
        0x80000000
      { mem := mem5, hook := { hook1 with implementation := some cb },
        patchedMethods := jsSetAdd c.patchedMethods wid }
    | none =>
      let pm1 := jsSetDelete c.patchedMethods wid
      let mem1 := memCopyFromList c.mem mid (hook1.dalvikOriginalMethod.getD [])
      { mem := mem1, hook := { hook1 with implementation := none },
        patchedMethods := pm1 }

/-! ## `dispose(env)` -/

/-- A `patchedClasses` entry (Dalvik vtable overlay bookkeeping): the saved
vtable pointer/count cells and values, and the wrapper ids held in the
entry's `targetMethods` map. -/
structure PatchedClassEntry where
  vtablePtr : ℕ
  vtableCountPtr : ℕ
  vtable : ℕ
  vtableCount : ℕ
  targetMethods : List ℕ
deriving DecidableEq

/-- The factory-wide state `dispose` operates on (ART flavor): the class
cache and reference table, process memory, each method wrapper's hook
closure state (keyed by wrapper JS id), the `patchedMethods` set and the
`patchedClasses` table (always empty on ART, where `synchronizeDalvikVtable`
never runs). -/
structure ArtVMState where
  fac : FacState
  mem : ℕ → ℕ
  hooks : List (ℕ × ArtMethodHook)
  patchedMethods : List ℕ
  patchedClasses : List PatchedClassEntry

/-- `targetMethods[methodId].implementation = null` for one entry: on the
ART flavor the `implementation` setter is `replaceArtImplementation`
(clearing never throws). -/
def clearArtHookImpl (api : ArtApi) (wid : ℕ) (st : ArtVMState) :
    ArtVMState :=
  match st.hooks.lookup wid with
  | none => st
  | some hook =>
    let c1 := (replaceArtImplementation api wid none
      ⟨st.mem, hook, st.patchedMethods⟩).1
    { st with
      mem := c1.mem
      hooks := st.hooks.map fun p => if p.1 = wid then (wid, c1.hook) else p
      patchedMethods := c1.patchedMethods }

/-- `dispose(env)`.  The first loop is
`while (patchedMethods.length > 0) { patchedMethods.pop().implementation = null; }`:
`patchedMethods` is a JS `Set`, whose `length` property is `undefined`, and
`undefined > 0` is `false`, so the loop body never executes (had the guard
ever held, `patchedMethods.pop` is likewise not a `Set` method and the call
would throw a `TypeError`).  The second loop writes every saved Dalvik
vtable pointer and count back, clears each overlay target method's
replacement, and empties `patchedClasses`.  The third loop deletes the
pinned global references of every cached wrapper (`__methods__`,
`__fields__`, `__handle__`) and empties the class cache. -/
def dispose (api : ArtApi) (s : ArtVMState) : Except String ArtVMState :=
  if jsGtNum (jsSetGetNumProp s.patchedMethods "length") 0 then
    .error "TypeError: patchedMethods.pop is not a function"
  else
    let s1 := s.patchedClasses.foldl (fun st e =>
      let st := { st with
        mem := writeWord (writeWord st.mem e.vtablePtr e.vtable)
          e.vtableCountPtr e.vtableCount }
      e.targetMethods.foldl (fun st2 wid => clearArtHookImpl api wid st2) st) s
    let s2 := { s1 with patchedClasses := [] }
    let env1 := s2.fac.classes.foldl (fun ev pr =>
      let ev := pr.2.methodRefs.foldl deleteRef ev
      let ev := pr.2.fieldRefs.foldl deleteRef ev
      deleteRef ev pr.2.handleRef) s2.fac.env
    .ok { s2 with fac := { s2.fac with classes := [], env := env1 } }

/-! ## Concrete evaluation scenarios

Small closed worlds and states on which the theorems below are evaluated. -/

/-- A Java world with one class `com.example.X` (class object 10) and one
instance of it (object 20), with no superclass and no declared members. -/
def demoWorld : JavaWorld where
  classNameOf := fun _ => "com.example.X"
  superOf := fun _ => none
  classObjOf := fun n => if n = "com/example/X" then some 10 else none
  isInstanceOf := fun o c => decide (o = 20) && decide (c = 10)
  declaredMethods := fun _ => []
  declaredFields := fun _ => []

/-- An empty factory. -/
def demoFac0 : FacState where
  env := { nextRef := 0, refs := [] }
  classes := []
  loader := none
  nextJsId := 0

/-- A wrapper class for `com.example.X` whose `__handle__` is reference 3. -/
def demoKlassX : KlassRec where
  kid := 1
  simpleName := "X"
  fullName := "com.example.X"
  handleRef := 3
  methodRefs := []
  fieldRefs := []
  superKid := none

/-- A factory state holding `demoKlassX`, with references 3 and 4 pinning
class object 10 and reference 7 pinning instance object 20. -/
def demoFacC3 : FacState where
  env := { nextRef := 50, refs := [(7, 20), (4, 10), (3, 10)] }
  classes := [("com.example.X", demoKlassX)]
  loader := none
  nextJsId := 6

/-- A wrapper instance of `com.example.X`: `$classHandle` is reference 4,
`$handle` is reference 7 (object 20). -/
def demoInstanceX : ClassInstance where
  iid := 5
  classWrapper := demoKlassX
  classHandle := 4
  handle := some 7

/-- `int` argument descriptor (as produced by `getTypeFromJniTypename`). -/
def demoIntArg : TypeDesc := { id := 2, className := "int", size := 1, kind := .prim "int" }

/-- `java.lang.String` argument descriptor. -/
def demoStrArg : TypeDesc :=
  { id := 3, className := "java.lang.String", size := 1,
    kind := .object "java.lang.String" }

/-- `void` return descriptor. -/
def demoVoidRet : TypeDesc := { id := 1, className := "void", size := 0, kind := .prim "void" }

/-- An instance overload `m(int)`. -/
def demoMInt : MethodDesc :=
  { name := "m", mtype := .instanceM, impl := .jni 11, retType := demoVoidRet,
    argTypes := [demoIntArg] }

/-- An instance overload `m(java.lang.String)`. -/
def demoMStr : MethodDesc :=
  { name := "m", mtype := .instanceM, impl := .jni 12, retType := demoVoidRet,
    argTypes := [demoStrArg] }

/-- An instance overload `toString(int)` — a one-argument `toString`. -/
def demoToStringInt : MethodDesc :=
  { name := "toString", mtype := .instanceM, impl := .jni 13,
    retType := demoStrArg, argTypes := [demoIntArg] }

/-- A zero-argument instance `toString()`. -/
def demoToString0 : MethodDesc :=
  { name := "toString", mtype := .instanceM, impl := .jni 14,
    retType := demoStrArg, argTypes := [] }

/-- The non-integral JS number 42.5, as the reduced rational 85/2 (built
from the raw constructor so that its numerator and denominator reduce). -/
def demoNum42p5 : ℚ := ⟨85, 2, by decide, by decide⟩

/-- An overload whose return type failed to resolve (pending exception). -/
def demoBadOverload : OverloadInfo :=
  { methodId := 1, modifiers := 0, retTypeName := none,
    argTypeNames := some ["int"] }

/-- A fully resolvable overload `int m(int)`. -/
def demoGoodOverload : OverloadInfo :=
  { methodId := 2, modifiers := 0, retTypeName := some "int",
    argTypeNames := some ["int"] }

/-- `ArtMethod` field offsets for the demo: words 0..3 of the record. -/
def demoOff : ArtMethodOffsets where
  jniCode := 0
  accessFlags := 1
  quickCode := 2
  interpreterCode := 3

/-- A demo ART `Api` with a resolved generic-JNI trampoline at 555 and the
interpreter bridge at 444. -/
def demoApi : ArtApi where
  off := demoOff
  quickGenericJniTrampoline := some 555
  artInterpreterToCompiledCodeBridge := 444

/-- All-zero process memory. -/
def demoMem0 : ℕ → ℕ := fun _ => 0

/-- An unhooked method record at address 100. -/
def demoHook0 : ArtMethodHook where
  methodId := 100
  artOriginalMethodInfo := none
  implementation := none

/-- The context after installing a replacement (callback at 777) on the demo
method from wrapper id 1. -/
def demoHookedCtx : HookCtx :=
  (replaceArtImplementation demoApi 1 (some 777)
    { mem := demoMem0, hook := demoHook0, patchedMethods := [] }).1

/-- The factory-wide state right after that installation: one hooked method,
listed in `patchedMethods`, no Dalvik overlays, empty class cache. -/
def demoVMState : ArtVMState where
  fac := demoFac0
  mem := demoHookedCtx.mem
  hooks := [(1, demoHookedCtx.hook)]
  patchedMethods := demoHookedCtx.patchedMethods
  patchedClasses := []

/-- The wrapper class created by the first demo `use` call. -/
def demoKlassX0 : KlassRec where
  kid := 0
  simpleName := "X"
  fullName := "com.example.X"
  handleRef := 1
  methodRefs := []
  fieldRefs := []
  superKid := none

/-- The instance returned by the first demo `use` call. -/
def demoUse1Inst : ClassInstance where
  iid := 1
  classWrapper := demoKlassX0
  classHandle := 2
  handle := none

/-- The factory state after the first demo `use` call. -/
def demoUse1State : FacState where
  env := { nextRef := 3, refs := [(2, 10), (1, 10)] }
  classes := [("com.example.X", demoKlassX0)]
  loader := none
  nextJsId := 2

/-- The instance returned by the second demo `use` call. -/
def demoUse2Inst : ClassInstance where
  iid := 2
  classWrapper := demoKlassX0
  classHandle := 3
  handle := none

/-- The factory state after the second demo `use` call. -/
def demoUse2State : FacState where
  env := { nextRef := 4, refs := [(3, 10), (2, 10), (1, 10)] }
  classes := [("com.example.X", demoKlassX0)]
  loader := none
  nextJsId := 3

/-- The instance returned by the demo `cast` call. -/
def demoCastInst : ClassInstance where
  iid := 6
  classWrapper := demoKlassX
  classHandle := 50
  handle := some 51

/-- The factory state after the demo `cast` call. -/
def demoCastState : FacState where
  env := { nextRef := 52, refs := [(51, 20), (50, 10), (7, 20), (4, 10), (3, 10)] }
  classes := [("com.example.X", demoKlassX)]
  loader := none
  nextJsId := 7

/-! ## Theorems -/

/-- **C9.** For every primitive TypeAdapter and every compatible value,
marshaling out and back is the identity — `fromJni(toJni(v)) == v`, the
converters composed where defined and the identity where absent — and
`isCompatible` is false for every value outside the primitive's range:
`boolean` accepts only booleans, `byte`/`short`/`int` only integers in
their two's-complement range (e.g. `byte` rejects integers outside
`[-128, 127]`), `char` only strings of exactly one code unit, `long` only
numbers and `Int64` instances, `float`/`double` only numbers, and `void`
only `undefined`. -/
theorem primitive_round_trip_and_ranges :
    (∀ v, booleanPrim.isCompatible v = true → primRoundTrip booleanPrim v = v) ∧
    (∀ v, booleanPrim.isCompatible v = true → ∃ b, v = .vbool b) ∧
    (∀ v, bytePrim.isCompatible v = true → primRoundTrip bytePrim v = v) ∧
    (∀ v, bytePrim.isCompatible v = true →
      ∃ n : ℤ, v = .vnum (n : ℚ) ∧ -128 ≤ n ∧ n ≤ 127) ∧
    (∀ v, charPrim.isCompatible v = true → primRoundTrip charPrim v = v) ∧
    (∀ v, charPrim.isCompatible v = true → ∃ c ≤ 65535, v = .vstr [c]) ∧
    (∀ v, shortPrim.isCompatible v = true → primRoundTrip shortPrim v = v) ∧
    (∀ v, shortPrim.isCompatible v = true →
      ∃ n : ℤ, v = .vnum (n : ℚ) ∧ -32768 ≤ n ∧ n ≤ 32767) ∧
    (∀ v, intPrim.isCompatible v = true → primRoundTrip intPrim v = v) ∧
    (∀ v, intPrim.isCompatible v = true →
      ∃ n : ℤ, v = .vnum (n : ℚ) ∧ -2147483648 ≤ n ∧ n ≤ 2147483647) ∧
    (∀ v, longPrim.isCompatible v = true → primRoundTrip longPrim v = v) ∧
    (∀ v, longPrim.isCompatible v = true →
      (∃ q : ℚ, v = .vnum q) ∨ (∃ n : ℤ, v = .vint64 n)) ∧
    (∀ v, floatPrim.isCompatible v = true → primRoundTrip floatPrim v = v) ∧
    (∀ v, floatPrim.isCompatible v = true → ∃ q : ℚ, v = .vnum q) ∧
    (∀ v, doublePrim.isCompatible v = true → primRoundTrip doublePrim v = v) ∧
    (∀ v, doublePrim.isCompatible v = true → ∃ q : ℚ, v = .vnum q) ∧
    (∀ v, voidPrim.isCompatible v = true → primRoundTrip voidPrim v = v) ∧
    (∀ v, voidPrim.isCompatible v = true → v = .vundef) := by
  have hrng : ∀ (lo hi : ℤ) (v : JVal) (p : PrimDesc),
      (p.isCompatible = fun v => match v with
        | .vnum q => jsIsInteger q && decide ((lo : ℚ) ≤ q) && decide (q ≤ (hi : ℚ))
        | _ => false) →
      p.isCompatible v = true →
      ∃ n : ℤ, v = .vnum (n : ℚ) ∧ lo ≤ n ∧ n ≤ hi := by
    intro lo hi v p hp hv
    rw [hp] at hv
    cases v <;> simp only [Bool.and_eq_true, decide_eq_true_eq, Bool.false_eq_true] at hv
    case vnum q =>
      obtain ⟨⟨hint, hlo⟩, hhi⟩ := hv
      have hden : q.den = 1 := by simpa [jsIsInteger] using hint
      have hq : (q.num : ℚ) = q := Rat.coe_int_num_of_den_eq_one hden
      refine ⟨q.num, by rw [hq], ?_, ?_⟩
      · exact_mod_cast hq ▸ hlo
      · exact_mod_cast hq ▸ hhi
  refine ⟨?_, ?_, fun v _ => rfl, ?_, ?_, ?_, fun v _ => rfl, ?_, fun v _ => rfl,
    ?_, fun v _ => rfl, ?_, fun v _ => rfl, ?_, fun v _ => rfl, ?_,
    fun v _ => rfl, ?_⟩
  · intro v hv
    cases v <;> simp only [booleanPrim, Bool.false_eq_true] at hv
    case vbool b => cases b <;> rfl
  · intro v hv
    cases v <;> simp only [booleanPrim, Bool.false_eq_true] at hv
    case vbool b => exact ⟨b, rfl⟩
  · exact fun v => hrng (-128) 127 v bytePrim rfl
  · intro v hv
    cases v <;> simp only [charPrim, Bool.false_eq_true] at hv
    case vstr u =>
      match u, hv with
      | [c], hv =>
        have hc : c ≤ 65535 := by simpa using hv
        have : jsToUint16 ((c : ℕ) : ℚ) = c := by
          simp [jsToUint16, Rat.den_natCast, Rat.num_natCast]
          omega
        simp [primRoundTrip, applyConv, charPrim, this]
  · intro v hv
    cases v <;> simp only [charPrim, Bool.false_eq_true] at hv
    case vstr u =>
      match u, hv with
      | [c], hv => exact ⟨c, by simpa using hv, rfl⟩
  · exact fun v => hrng (-32768) 32767 v shortPrim rfl
  · exact fun v => hrng (-2147483648) 2147483647 v intPrim rfl
  · intro v hv
    cases v <;> simp only [longPrim, Bool.false_eq_true] at hv
    case vnum q => exact .inl ⟨q, rfl⟩
    case vint64 n => exact .inr ⟨n, rfl⟩
  · intro v hv
    cases v <;> simp only [floatPrim, Bool.false_eq_true] at hv
    case vnum q => exact ⟨q, rfl⟩
  · intro v hv
    cases v <;> simp only [doublePrim, Bool.false_eq_true] at hv
    case vnum q => exact ⟨q, rfl⟩
  · intro v hv
    cases v <;> simp only [voidPrim, Bool.false_eq_true] at hv
    case vundef => rfl

/-- Witness for C9: the boundary values round-trip — `byte` at `-1`,
`char` at `"a"` (code unit 97), `boolean` at `true` — and `byte` at `-128`
is integral and in range. -/
theorem primitive_round_trip_and_ranges_witness :
    primRoundTrip bytePrim (.vnum (-1)) = .vnum (-1) ∧
    primRoundTrip charPrim (.vstr [97]) = .vstr [97] ∧
    primRoundTrip booleanPrim (.vbool true) = .vbool true ∧
    ∃ n : ℤ, (JVal.vnum (-128) : JVal) = .vnum (n : ℚ) ∧ -128 ≤ n ∧ n ≤ 127 :=
  ⟨primitive_round_trip_and_ranges.2.2.1 (.vnum (-1)) (by decide),
   primitive_round_trip_and_ranges.2.2.2.2.1 (.vstr [97]) (by decide),
   primitive_round_trip_and_ranges.1 (.vbool true) rfl,
   primitive_round_trip_and_ranges.2.2.2.1 (.vnum (-128)) (by decide)⟩

/-- **C5.** When an overload group named `valueOf` contains no
zero-argument instance overload, the resolver appends the synthetic
`defaultValueOf`: a zero-argument instance overload whose body returns the
receiver itself and whose declared return type is `int`; when a
zero-argument instance `valueOf` already exists, nothing is added. -/
theorem valueOf_synthetic_overload (methods : List MethodDesc) :
    ((¬ ∃ m ∈ methods, m.mtype = .instanceM ∧ m.argTypes.length = 0) →
      addDefaultValueOf "valueOf" methods = methods ++ [defaultValueOfDesc] ∧
      defaultValueOfDesc.mtype = .instanceM ∧
      defaultValueOfDesc.argTypes = [] ∧
      defaultValueOfDesc.impl = .syntheticValueOf ∧
      defaultValueOfDesc.retType.className = "int" ∧
      defaultValueOfDesc.retType.kind = .prim "int" ∧
      (∀ self, defaultValueOfBody self = self)) ∧
    ((∃ m ∈ methods, m.mtype = .instanceM ∧ m.argTypes.length = 0) →
      addDefaultValueOf "valueOf" methods = methods) := by
  constructor
  · intro h
    have hb : (methods.any fun m =>
        m.mtype == .instanceM && m.argTypes.length == 0) = false := by
      rw [Bool.eq_false_iff]
      intro hc
      obtain ⟨m, hm, hp⟩ := List.any_eq_true.mp hc
      simp only [Bool.and_eq_true, beq_iff_eq] at hp
      exact h ⟨m, hm, hp.1, hp.2⟩
    refine ⟨?_, rfl, rfl, rfl, rfl, rfl, fun _ => rfl⟩
    simp [addDefaultValueOf, hb]
  · rintro ⟨m, hm, h1, h2⟩
    have hb : (methods.any fun m =>
        m.mtype == .instanceM && m.argTypes.length == 0) = true :=
      List.any_eq_true.mpr ⟨m, hm, by simp [h1, h2]⟩
    simp [addDefaultValueOf, hb]

/-- Witness for C5: with no overloads at all, the synthetic zero-argument
instance `valueOf` is appended and its body maps any receiver to itself. -/
theorem valueOf_synthetic_overload_witness :
    addDefaultValueOf "valueOf" [] = [defaultValueOfDesc] ∧
    defaultValueOfBody (.vnum 7) = .vnum 7 := by
  have h := (valueOf_synthetic_overload []).1 (by simp)
  exact ⟨by simpa using h.1, h.2.2.2.2.2.2 _⟩

/-- `find?` returns the head of the first-match decomposition. -/
theorem find?_of_decomp {α} (p : α → Bool) (pre post : List α) (m : α)
    (hpre : ∀ x ∈ pre, p x = false) (hm : p m = true) :
    (pre ++ m :: post).find? p = some m := by
  induction pre with
  | nil => simpa using List.find?_cons_of_pos post hm
  | cons a l ih =>
    have ha : ¬ p a = true := by
      simp [hpre a (List.mem_cons_self a l)]
    rw [List.cons_append, List.find?_cons_of_neg _ ha]
    exact ih fun x hx => hpre x (List.mem_cons_of_mem a hx)

/-- **C6.** For every dispatcher call on an instance receiver: if no
overload has the call's arity the call fails with the arity error;
otherwise the invoked overload is the first of the arity bucket whose
argument types' `isCompatible` predicates all hold positionally; if no
bucket member is compatible the call fails with the signature error. -/
theorem dispatch_selects_first_compatible (name wn : String)
    (methods : List MethodDesc) (args : List JVal) :
    (∀ isInstance, (∀ m ∈ methods, m.argTypes.length ≠ args.length) →
      dispatchCall name wn methods isInstance args =
        .error (name ++ ": argument count does not match any overload")) ∧
    (∀ pre m post,
      methodsWithArity methods args.length = pre ++ m :: post →
      (∀ m2 ∈ pre, canInvokeWith m2 args = false) →
      canInvokeWith m args = true →
      dispatchCall name wn methods true args = .invoked m) ∧
    (∀ isInstance, (∃ m ∈ methods, m.argTypes.length = args.length) →
      (∀ m ∈ methods, m.argTypes.length = args.length →
        canInvokeWith m args = false) →
      dispatchCall name wn methods isInstance args =
        .error (name ++ ": argument types do not match any overload")) := by
  refine ⟨?_, ?_, ?_⟩
  · intro isInstance h
    have hempty : methodsWithArity methods args.length = [] := by
      rw [methodsWithArity, List.filter_eq_nil_iff]
      intro m hm
      simpa using h m hm
    simp [dispatchCall, hempty]
  · intro pre m post hdecomp hpre hm
    have hfind : (methodsWithArity methods args.length).find?
        (fun m2 => canInvokeWith m2 args) = some m := by
      rw [hdecomp]; exact find?_of_decomp _ pre post m hpre hm
    have hne : (methodsWithArity methods args.length).isEmpty = false := by
      rw [hdecomp]; simp
    simp [dispatchCall, hne, hfind]
  · rintro isInstance ⟨m0, hm0, hlen0⟩ hall
    have hne : (methodsWithArity methods args.length).isEmpty = false := by
      rw [List.isEmpty_eq_false]
      intro hnil
      have : m0 ∈ methodsWithArity methods args.length :=
        List.mem_filter.mpr ⟨hm0, by simpa using hlen0⟩
      simp [hnil] at this
    have hfind : (methodsWithArity methods args.length).find?
        (fun m2 => canInvokeWith m2 args) = none := by
      rw [List.find?_eq_none]
      intro m hm
      obtain ⟨hmem, hlen⟩ := List.mem_filter.mp hm
      simpa using hall m hmem (by simpa using hlen)
    simp [dispatchCall, hne, hfind]

/-- Witness for C6: with overloads `m(int)` and `m(String)`, the call
`m(42)` invokes the first, `m("x")` invokes the second, and `m(42.5)`
fails with the signature error. -/
theorem dispatch_selects_first_compatible_witness :
    dispatchCall "m" "X" [demoMInt, demoMStr] true [.vnum 42] =
      .invoked demoMInt ∧
    dispatchCall "m" "X" [demoMInt, demoMStr] true [.vstr [120]] =
      .invoked demoMStr ∧
    dispatchCall "m" "X" [demoMInt, demoMStr] true [.vnum demoNum42p5] =
      .error "m: argument types do not match any overload" :=
  ⟨(dispatch_selects_first_compatible "m" "X" [demoMInt, demoMStr]
      [.vnum 42]).2.1 [] demoMInt [demoMStr] rfl (by simp) (by decide),
   (dispatch_selects_first_compatible "m" "X" [demoMInt, demoMStr]
      [.vstr [120]]).2.1 [demoMInt] demoMStr [] rfl (by decide) (by decide),
   (dispatch_selects_first_compatible "m" "X" [demoMInt, demoMStr]
      [.vnum demoNum42p5]).2.2 true ⟨demoMInt, by simp, rfl⟩ (by decide)⟩

/-- Counterexample to **C7** as stated: `toString` called *with one
argument* on a class-only view also returns the literal `'<'+className+'>'`
instead of raising the instance-method error — the special case in the
dispatcher is keyed on the name `toString` alone, not on arity zero. -/
theorem toString_literal_on_class_view_any_arity :
    dispatchCall "toString" "com.example.X" [demoToStringInt] false
      [.vnum 5] = .literal "<com.example.X>" := by decide

/-- **C7 (amended).** Calling an instance-kind method on a class-only view
(`$handle === null`) raises an error, except when the dispatcher's name is
`toString`: any matched instance `toString` overload, of any arity, returns
the literal `'<' + className + '>'`. -/
theorem instance_method_on_class_view (name wn : String)
    (methods : List MethodDesc) (args : List JVal) (m : MethodDesc)
    (hfind : (methodsWithArity methods args.length).find?
        (fun m2 => canInvokeWith m2 args) = some m)
    (hm : m.mtype = .instanceM) :
    dispatchCall name wn methods false args =
      if name = "toString" then .literal ("<" ++ wn ++ ">")
      else .error (name ++ ": cannot call instance method without an instance")
    := by
  have hne : (methodsWithArity methods args.length).isEmpty = false := by
    rw [List.isEmpty_eq_false]
    intro hnil
    rw [hnil] at hfind
    simp at hfind
  simp [dispatchCall, hne, hfind, hm]

/-- Witness for C7 (amended): the zero-argument case — `toString()` on a
class view returns the literal — by direct application of the theorem. -/
theorem instance_method_on_class_view_witness :
    dispatchCall "toString" "com.example.X" [demoToString0] false [] =
      .literal "<com.example.X>" := by
  have h := instance_method_on_class_view "toString" "com.example.X"
    [demoToString0] [] demoToString0 rfl rfl
  simpa using h

/-- Counterexample to **C8** as stated: lookups are not cached — two
successive lookups of the same name build two distinct descriptor objects
(fresh identity each call), so the second lookup does not return the
descriptor of the first. -/
theorem type_lookup_allocates_fresh_descriptor :
    ∃ d1 d2 : TypeDesc,
      getTypeFromJniTypename "int" 0 = .ok (d1, 1) ∧
      getTypeFromJniTypename "int" 1 = .ok (d2, 2) ∧
      d1 ≠ d2 :=
  ⟨_, _, rfl, rfl, by decide⟩

set_option maxHeartbeats 1000000 in
/-- Every lookup succeeds: a primitive name resolves to its registry entry,
a `[`-name resolves through the array cases, and *any* other name resolves
as an object (reference) type — so the `'Unsupported type'` failure is
unreachable from `getTypeFromJniTypename`. -/
theorem lookupKind_total (cs : List Char) : ∃ k, lookupKind cs = .ok k := by
  induction cs with
  | nil => exact ⟨_, rfl⟩
  | cons c rest ih =>
    obtain ⟨k, hk⟩ := ih
    rw [lookupKind.eq_def]
    split
    · split
      · exact ⟨_, rfl⟩
      · split
        any_goals exact ⟨_, rfl⟩
        refine ⟨.array k, ?_⟩
        simp_all only [List.cons.injEq]
        rfl
    · split
      · exact ⟨_, rfl⟩
      · exact ⟨_, rfl⟩

/-- **C8 (amended).** Type lookups never fail — every name that is neither
a primitive nor an array resolves as a reference (object) type, so no input
reaches an `UnsupportedType` failure — and repeated lookups of the same
name build fresh, non-identical descriptor objects of equal content (same
`className`, `size` and behavioral shape): there is no lookup cache. -/
theorem type_lookup_total_fresh_equal (typename : String) (a : ℕ) :
    ∃ d1 d2 : TypeDesc,
      getTypeFromJniTypename typename a = .ok (d1, a + 1) ∧
      getTypeFromJniTypename typename (a + 1) = .ok (d2, a + 2) ∧
      d1.id ≠ d2.id ∧ d1.className = d2.className ∧ d1.size = d2.size ∧
      d1.kind = d2.kind := by
  obtain ⟨k, hk⟩ := lookupKind_total typename.toList
  refine ⟨{ id := a, className := topClassName typename, size := kindSize k,
            kind := k },
          { id := a + 1, className := topClassName typename,
            size := kindSize k, kind := k }, ?_, ?_,
          (by omega : a ≠ a + 1), rfl, rfl, rfl⟩
  · simp only [getTypeFromJniTypename, hk]
    rfl
  · simp only [getTypeFromJniTypename, hk]
    rfl

/-- `patchMethod` leaves every cell other than the four field cells
unchanged. -/
theorem patchMethod_untouched (off : ArtMethodOffsets) (mem : ℕ → ℕ)
    (mid : ℕ) (p : ArtMethodInfo) (x : ℕ)
    (h1 : x ≠ mid + off.jniCode) (h2 : x ≠ mid + off.accessFlags)
    (h3 : x ≠ mid + off.quickCode) (h4 : x ≠ mid + off.interpreterCode) :
    patchMethod off mem mid p x = mem x := by
  simp only [patchMethod, writeWord]
  rw [if_neg h4, if_neg h3, if_neg h2, if_neg h1]

/-- Writing a fetched snapshot back restores the original memory, provided
the intermediate memory agrees with the original outside the four field
cells. -/
theorem patchMethod_fetch_restore (off : ArtMethodOffsets) (mem m1 : ℕ → ℕ)
    (mid a : ℕ)
    (hsame : ∀ x, x ≠ mid + off.jniCode → x ≠ mid + off.accessFlags →
      x ≠ mid + off.quickCode → x ≠ mid + off.interpreterCode → m1 x = mem x) :
    patchMethod off m1 mid (fetchMethod off mem mid) a = mem a := by
  simp only [patchMethod, fetchMethod, writeWord]
  by_cases g1 : a = mid + off.interpreterCode
  · rw [if_pos g1, g1]
  · rw [if_neg g1]
    by_cases g2 : a = mid + off.quickCode
    · rw [if_pos g2, g2]
    · rw [if_neg g2]
      by_cases g3 : a = mid + off.accessFlags
      · rw [if_pos g3, g3]
      · rw [if_neg g3]
        by_cases g4 : a = mid + off.jniCode
        · rw [if_pos g4, g4]
        · rw [if_neg g4]
          exact hsame a g4 g3 g2 g1

/-- `writeWord` leaves other cells unchanged. -/
theorem writeWord_ne (mem : ℕ → ℕ) (addr v x : ℕ) (h : x ≠ addr) :
    writeWord mem addr v x = mem x := if_neg h

/-- Copying a duplicated region back restores the original memory wherever
the intermediate memory agrees with the original outside the region. -/
theorem memCopy_memDup_restore (mem m2 : ℕ → ℕ) (mid n a : ℕ)
    (houtside : ∀ x, (x < mid ∨ mid + n ≤ x) → m2 x = mem x) :
    memCopyFromList m2 mid (memDup mem mid n) a = mem a := by
  simp only [memCopyFromList, memDup, List.length_map, List.length_range]
  by_cases hin : mid ≤ a ∧ a < mid + n
  · rw [if_pos hin]
    have hlt : a - mid < n := by omega
    rw [List.getD_eq_getElem?_getD, List.getElem?_map,
      List.getElem?_range hlt]
    simp only [Option.map_some', Option.getD_some]
    congr 1
    omega
  · rw [if_neg hin]
    exact houtside a (by omega)

/-- The Dalvik install writes (`accessFlags`, `registersSize`, `outsSize`,
`insSize`, `jniArgInfo`) all land inside the 56-byte `Method` struct. -/
theorem dalvikInstallMem_outside (mem : ℕ → ℕ) (mid af rs os is ji x : ℕ)
    (h : x < mid ∨ mid + 56 ≤ x) :
    writeU32le
      (writeU16le
        (writeU16le
          (writeU16le (writeU32le mem (mid + 4) af) (mid + 10) rs)
          (mid + 12) os)
        (mid + 14) is)
      (mid + 36) ji x = mem x := by
  simp only [writeU32le, writeU16le]
  rw [writeWord_ne _ _ _ _ (by omega : x ≠ mid + 36 + 3),
    writeWord_ne _ _ _ _ (by omega : x ≠ mid + 36 + 2),
    writeWord_ne _ _ _ _ (by omega : x ≠ mid + 36 + 1),
    writeWord_ne _ _ _ _ (by omega : x ≠ mid + 36),
    writeWord_ne _ _ _ _ (by omega : x ≠ mid + 14 + 1),
    writeWord_ne _ _ _ _ (by omega : x ≠ mid + 14),
    writeWord_ne _ _ _ _ (by omega : x ≠ mid + 12 + 1),
    writeWord_ne _ _ _ _ (by omega : x ≠ mid + 12),
    writeWord_ne _ _ _ _ (by omega : x ≠ mid + 10 + 1),
    writeWord_ne _ _ _ _ (by omega : x ≠ mid + 10),
    writeWord_ne _ _ _ _ (by omega : x ≠ mid + 4 + 3),
    writeWord_ne _ _ _ _ (by omega : x ≠ mid + 4 + 2),
    writeWord_ne _ _ _ _ (by omega : x ≠ mid + 4 + 1),
    writeWord_ne _ _ _ _ (by omega : x ≠ mid + 4)]

/-- **C4.** After installing a replacement on a not-yet-hooked method and
then clearing it, the method's native record equals its pre-hook snapshot:
on Dalvik, every byte of memory — in particular the whole 56-byte `Method`
struct — is restored; on ART, the `jniCode`, `accessFlags`, `quickCode` and
`interpreterCode` words (and every other cell) are restored, whether or not
the trampoline resolution succeeded during installation. -/
theorem hook_install_uninstall_restores :
    (∀ (wid cb : ℕ) (argTypes : List TypeDesc) (mt : MType) (mem : ℕ → ℕ)
      (mid : ℕ) (tgt : Option (List ℕ)) (impl0 : Option ℕ) (pm : List ℕ)
      (a : ℕ),
      (replaceDalvikImplementation wid none argTypes mt
        (replaceDalvikImplementation wid (some cb) argTypes mt
          { mem := mem,
            hook := { methodId := mid, dalvikOriginalMethod := none,
                      dalvikTargetMethod := tgt, implementation := impl0 },
            patchedMethods := pm })).mem a = mem a) ∧
    (∀ (api : ArtApi) (wid cb : ℕ) (mem : ℕ → ℕ) (mid : ℕ)
      (impl0 : Option ℕ) (pm : List ℕ) (a : ℕ),
      ((replaceArtImplementation api wid none
        ((replaceArtImplementation api wid (some cb)
          { mem := mem,
            hook := { methodId := mid, artOriginalMethodInfo := none,
                      implementation := impl0 },
            patchedMethods := pm }).1)).1).mem a = mem a) := by
  constructor
  · intro wid cb argTypes mt mem mid tgt impl0 pm a
    exact memCopy_memDup_restore mem _ mid DVM_METHOD_SIZE a fun x hx =>
      dalvikInstallMem_outside mem mid _ _ _ _ _ x
        (show x < mid ∨ mid + 56 ≤ x from hx)
  · intro api wid cb mem mid impl0 pm a
    cases htr : api.quickGenericJniTrampoline with
    | none =>
      simp only [replaceArtImplementation, htr]
      exact patchMethod_fetch_restore api.off mem mem mid a
        fun x _ _ _ _ => rfl
    | some tramp =>
      simp only [replaceArtImplementation, htr]
      exact patchMethod_fetch_restore api.off mem _ mid a
        fun x hx1 hx2 hx3 hx4 =>
          patchMethod_untouched api.off mem mid _ x hx1 hx2 hx3 hx4

/-- The wrapper constructor records the class wrapper it was invoked on. -/
theorem newInstance_fst_classWrapper (C : KlassRec) (h : Option ℕ)
    (s : FacState) : (newInstance C h s).1.classWrapper = C := by
  cases h <;> rfl

/-- Constructing a wrapper instance does not touch the class cache. -/
theorem newInstance_snd_classes (C : KlassRec) (h : Option ℕ)
    (s : FacState) : (newInstance C h s).2.classes = s.classes := by
  cases h <;> rfl

/-- After a successful `ensureClassBody(handle, name)`, the cache maps
`name` to the returned wrapper, whatever the superclass recursion did. -/
theorem ensureClassBody_caches (w : JavaWorld)
    (recurse : FacState → ℕ → Option String →
      Except String (KlassRec × FacState))
    (s : FacState) (classRef : ℕ) (n : String) (C : KlassRec) (s1 : FacState)
    (h : ensureClassBody w recurse s classRef (some n) = .ok (C, s1)) :
    s1.classes.lookup n = some C := by
  unfold ensureClassBody at h
  dsimp only at h
  split at h
  · rename_i k heq
    injection h with h2
    injection h2 with hC hs
    subst hC; subst hs
    exact heq
  · rename_i heq
    split at h
    · rename_i supObj hsup
      split at h
      · exact Except.noConfusion h
      · rename_i supK s' hrec
        injection h with h2
        dsimp only [finishClass] at h2
        injection h2 with hC hs
        subst hC; subst hs
        simp
    · rename_i hsup
      injection h with h2
      dsimp only [finishClass] at h2
      injection h2 with hC hs
      subst hC; subst hs
      simp

/-- After a successful `ensureClass(handle, name)`, the cache maps `name` to
the returned wrapper. -/
theorem ensureClass_caches (w : JavaWorld) (fuel : ℕ) (s : FacState)
    (classRef : ℕ) (n : String) (C : KlassRec) (s1 : FacState)
    (h : ensureClass w fuel s classRef (some n) = .ok (C, s1)) :
    s1.classes.lookup n = some C := by
  cases fuel with
  | zero => exact ensureClassBody_caches w _ s classRef n C s1 h
  | succ fuel => exact ensureClassBody_caches w _ s classRef n C s1 h

/-- After a successful `use(name)`, the cache maps `name` to the class
wrapper of the returned instance. -/
theorem use_ok_caches (w : JavaWorld) (fuel : ℕ) (s : FacState) (n : String)
    (i1 : ClassInstance) (s1 : FacState)
    (h : use w fuel s n = .ok (i1, s1)) :
    s1.classes.lookup n = some i1.classWrapper := by
  rw [use.eq_def] at h
  dsimp only at h
  split at h
  · rename_i C heq
    injection h with h2
    dsimp only [newInstance] at h2
    injection h2 with hi hs
    subst hi; subst hs
    exact heq
  · rename_i heq
    split at h
    · rename_i loadClass hloader
      split at h
      · exact Except.noConfusion h
      · rename_i clsObj hload
        split at h
        · exact Except.noConfusion h
        · rename_i C s2 hens
          injection h with h2
          dsimp only [newInstance] at h2
          injection h2 with hi hs
          subst hi; subst hs
          exact ensureClass_caches w fuel _ _ n C s2 hens
    · rename_i hloader
      split at h
      · exact Except.noConfusion h
      · rename_i clsObj hfind
        split at h
        · exact Except.noConfusion h
        · rename_i C s2 hens
          injection h with h2
          dsimp only [newInstance] at h2
          injection h2 with hi hs
          subst hi; subst hs
          exact ensureClass_caches w fuel _ _ n C s2 hens

/-- Counterexample to **C2** as stated: `use` returns
`new C(C.__handle__, null)` on *every* call, so two successive calls
`use("com.example.X")` return two distinct wrapper instances — distinct JS
objects (ids 1 and 2), hence `use("X") === use("X")` is false. -/
theorem use_returns_fresh_wrapper_instance :
    use demoWorld 9 demoFac0 "com.example.X" =
      .ok (demoUse1Inst, demoUse1State) ∧
    use demoWorld 9 demoUse1State "com.example.X" =
      .ok (demoUse2Inst, demoUse2State) ∧
    demoUse1Inst.iid ≠ demoUse2Inst.iid :=
  ⟨rfl, rfl, by decide⟩

/-- **C2 (amended).** Two successive `use(X)` calls return distinct wrapper
instances, but both are built from the identical cached class wrapper: the
wrapper constructor (`$classWrapper`) is created and cached once per name,
so `use("X").$classWrapper === use("X").$classWrapper`. -/
theorem use_returns_same_class_wrapper (w : JavaWorld) (fuel1 fuel2 : ℕ)
    (s : FacState) (n : String) (i1 i2 : ClassInstance) (s1 s2 : FacState)
    (h1 : use w fuel1 s n = .ok (i1, s1))
    (h2 : use w fuel2 s1 n = .ok (i2, s2)) :
    i1.classWrapper = i2.classWrapper := by
  have hc := use_ok_caches w fuel1 s n i1 s1 h1
  rw [use.eq_def] at h2
  dsimp only at h2
  split at h2
  · rename_i C heq
    rw [heq] at hc
    injection h2 with h3
    dsimp only [newInstance] at h3
    injection h3 with hi hs
    subst hi; subst hs
    exact (Option.some.inj hc).symm
  · rename_i heq
    rw [heq] at hc
    exact Option.noConfusion hc

/-- Witness for C2 (amended): the two demo calls share the cached class
wrapper. -/
theorem use_returns_same_class_wrapper_witness :
    demoUse1Inst.classWrapper = demoUse2Inst.classWrapper :=
  use_returns_same_class_wrapper demoWorld 9 9 demoFac0 "com.example.X"
    demoUse1Inst demoUse2Inst demoUse1State demoUse2State rfl rfl

/-- Counterexample to **C3** as stated: the wrapper built by `cast` stores
`env.newGlobalRef(handle)`, a *fresh* global reference (51), not the handle
it was given (7), so `cast(i.$handle, C).$handle === i.$handle` fails. -/
theorem cast_returns_fresh_global_ref :
    cast demoWorld demoFacC3 (.rawHandle 7) demoInstanceX =
      .ok (demoCastInst, demoCastState) ∧
    demoInstanceX.handle = some 7 ∧
    demoCastInst.handle = some 51 ∧
    demoCastInst.handle ≠ demoInstanceX.handle :=
  ⟨rfl, rfl, rfl, by decide⟩

/-- **C3 (amended).** Casting a live handle back to its class succeeds and
preserves the *referenced object*: the returned instance's `$handle` is a
fresh global reference whose underlying Java object is exactly that of the
original handle (so `IsSameObject` holds, though reference values differ). -/
theorem cast_preserves_underlying_object (w : JavaWorld) (s : FacState)
    (h : ℕ) (kv : ClassInstance)
    (hlt : h < s.env.nextRef)
    (hinst : w.isInstanceOf (targetOf s.env h)
      (targetOf s.env kv.classHandle) = true) :
    ∃ r s1, cast w s (.rawHandle h) kv = .ok (r, s1) ∧
      ∃ hr, r.handle = some hr ∧
        targetOf s1.env hr = targetOf s.env h := by
  refine ⟨(newInstance kv.classWrapper (some h) s).1,
    (newInstance kv.classWrapper (some h) s).2, ?_, ?_⟩
  · rw [cast.eq_def]
    dsimp only
    rw [if_pos hinst]
  · refine ⟨s.env.nextRef + 1, rfl, ?_⟩
    show targetOf (newInstance kv.classWrapper (some h) s).2.env
      (s.env.nextRef + 1) = targetOf s.env h
    simp only [newInstance, newGlobalRef, newRefTo, targetOf]
    rw [List.lookup_cons_self]
    simp only [Option.getD_some]
    rw [List.lookup_cons]
    have hne : (h == s.env.nextRef) = false := by
      simp only [beq_eq_false_iff_ne, ne_eq]
      omega
    rw [hne]

/-- Witness for C3 (amended): the demo cast succeeds and reference 51 and
reference 7 designate the same object (20). -/
theorem cast_preserves_underlying_object_witness :
    ∃ r s1, cast demoWorld demoFacC3 (.rawHandle 7) demoInstanceX =
        .ok (r, s1) ∧
      ∃ hr, r.handle = some hr ∧
        targetOf s1.env hr = targetOf demoFacC3.env 7 :=
  cast_preserves_underlying_object demoWorld demoFacC3 7 demoInstanceX
    (by decide) (by decide)

/-- A single type lookup always succeeds and advances the allocation
counter by one. -/
theorem getTypeFromJniTypename_total (n : String) (a : ℕ) :
    ∃ d, getTypeFromJniTypename n a = .ok (d, a + 1) := by
  obtain ⟨k, hk⟩ := lookupKind_total n.toList
  refine ⟨{ id := a, className := topClassName n, size := kindSize k,
            kind := k }, ?_⟩
  simp only [getTypeFromJniTypename, hk]
  rfl

/-- Looking up a list of type names always succeeds. -/
theorem lookupTypeList_total (ns : List String) (a : ℕ) :
    ∃ ds a2, lookupTypeList ns a = .ok (ds, a2) := by
  induction ns generalizing a with
  | nil => exact ⟨[], a, rfl⟩
  | cons n rest ih =>
    obtain ⟨d, hd⟩ := getTypeFromJniTypename_total n a
    obtain ⟨ds, a2, hds⟩ := ih (a + 1)
    exact ⟨d :: ds, a2, by simp only [lookupTypeList, hd, hds]⟩

/-- An overload resolves to `null` exactly when its return type or its
parameter types failed to resolve (the type-name lookup itself never
fails). -/
theorem makeMethodDesc_eq_none_iff (name : String) (o : OverloadInfo)
    (alloc : ℕ) :
    makeMethodDesc name o alloc = none ↔
      (o.retTypeName = none ∨ o.argTypeNames = none) := by
  rcases hrt : o.retTypeName with _ | rt
  · simp [makeMethodDesc, hrt]
  · rcases hat : o.argTypeNames with _ | ans
    · obtain ⟨d, hd⟩ := getTypeFromJniTypename_total rt alloc
      simp [makeMethodDesc, hrt, hat, hd]
    · obtain ⟨d, hd⟩ := getTypeFromJniTypename_total rt alloc
      obtain ⟨ds, a2, hds⟩ := lookupTypeList_total ans (alloc + 1)
      simp [makeMethodDesc, hrt, hat, hd, hds]

/-- `buildMethods` yields the empty list exactly when every overload is
unsupported. -/
theorem buildMethods_eq_nil_iff (name : String) (os : List OverloadInfo)
    (alloc : ℕ) :
    (buildMethods name os alloc).1 = [] ↔
      ∀ o ∈ os, supportedOverload o = false := by
  induction os generalizing alloc with
  | nil => simp [buildMethods]
  | cons o rest ih =>
    rw [buildMethods]
    rcases hmk : makeMethodDesc name o alloc with _ | ⟨m, a1⟩
    · have ho : supportedOverload o = false := by
        have := (makeMethodDesc_eq_none_iff name o alloc).mp hmk
        simp [supportedOverload]
        rcases this with h | h <;> simp [h]
      simp only [ho, ih]
      constructor
      · intro hall o' ho'
        rcases List.mem_cons.mp ho' with rfl | hmem
        · exact ho
        · exact hall o' hmem
      · intro hall o' ho'
        exact hall o' (List.mem_cons_of_mem o ho')
    · have ho : supportedOverload o = true := by
        by_contra hc
        have : makeMethodDesc name o alloc = none :=
          (makeMethodDesc_eq_none_iff name o alloc).mpr (by
            rcases ho2 : o.retTypeName with _ | _
            · exact .inl rfl
            · rcases ho3 : o.argTypeNames with _ | _
              · exact .inr rfl
              · exact absurd (by simp [supportedOverload, ho2, ho3]) hc)
        simp [this] at hmk
      simp only []
      constructor
      · intro hnil
        exact absurd hnil (by simp)
      · intro hall
        have := hall o (List.mem_cons_self o rest)
        rw [ho] at this
        exact absurd this (by simp)

/-- Skipping unsupported overloads is invisible: building from the
supported sublist yields the same descriptors. -/
theorem buildMethods_filter (name : String) (os : List OverloadInfo)
    (alloc : ℕ) :
    buildMethods name os alloc =
      buildMethods name (os.filter fun o => supportedOverload o) alloc := by
  induction os generalizing alloc with
  | nil => rfl
  | cons o rest ih =>
    rcases hmk : makeMethodDesc name o alloc with _ | ⟨m, a1⟩
    · have ho : supportedOverload o = false := by
        have := (makeMethodDesc_eq_none_iff name o alloc).mp hmk
        rcases this with h | h <;> simp [supportedOverload, h]
      rw [List.filter_cons_of_neg (by simp [ho])]
      rw [buildMethods, hmk]
      exact ih alloc
    · have ho : supportedOverload o = true := by
        by_contra hc
        have hn : makeMethodDesc name o alloc = none :=
          (makeMethodDesc_eq_none_iff name o alloc).mpr (by
            rcases ho2 : o.retTypeName with _ | _
            · exact .inl rfl
            · rcases ho3 : o.argTypeNames with _ | _
              · exact .inr rfl
              · exact absurd (by simp [supportedOverload, ho2, ho3]) hc)
        simp [hn] at hmk
      rw [List.filter_cons_of_pos (by simp [ho])]
      simp only [buildMethods, hmk]
      rw [← ih a1]

/-- A constructor resolves to `null` exactly when its parameter types
failed to resolve. -/
theorem makeCtorDescs_eq_none_iff (sn : String) (retD voidD : TypeDesc)
    (c : CtorInfo) (alloc : ℕ) :
    makeCtorDescs sn retD voidD c alloc = none ↔ c.argTypeNames = none := by
  rcases h : c.argTypeNames with _ | ans
  · simp [makeCtorDescs, h]
  · obtain ⟨ds, a2, hds⟩ := lookupTypeList_total ans alloc
    simp [makeCtorDescs, h, hds]

/-- `buildCtorPairs` yields the empty list exactly when every declared
constructor is unsupported. -/
theorem buildCtorPairs_eq_nil_iff (sn : String) (retD voidD : TypeDesc)
    (cs : List CtorInfo) (alloc : ℕ) :
    (buildCtorPairs sn retD voidD cs alloc).1 = [] ↔
      ∀ c ∈ cs, c.argTypeNames = none := by
  induction cs generalizing alloc with
  | nil => simp [buildCtorPairs]
  | cons c rest ih =>
    rw [buildCtorPairs]
    rcases hmk : makeCtorDescs sn retD voidD c alloc with _ | ⟨p, a1⟩
    · have hc := (makeCtorDescs_eq_none_iff sn retD voidD c alloc).mp hmk
      simp only [ih]
      constructor
      · intro hall c' hc'
        rcases List.mem_cons.mp hc' with rfl | hmem
        · exact hc
        · exact hall c' hmem
      · intro hall c' hc'
        exact hall c' (List.mem_cons_of_mem c hc')
    · have hc : ¬ c.argTypeNames = none := by
        intro h0
        have := (makeCtorDescs_eq_none_iff sn retD voidD c alloc).mpr h0
        simp [this] at hmk
      constructor
      · intro hnil
        exact absurd hnil (by simp)
      · intro hall
        exact absurd (hall c (List.mem_cons_self c rest)) hc

/-- **C10.** During member resolution, an overload (or constructor) whose
return or parameter types fail to resolve is silently omitted from the
dispatcher rather than surfacing an error: the `'No supported overloads'`
(resp. `'no supported overloads'`) error is raised exactly when *every*
overload of the name (resp. every declared constructor) is unsupported, and
on success the dispatcher's overload list is exactly the one built from the
supported overloads, in order. -/
theorem unsupported_overloads_silently_omitted
    (name className : String) (os : List OverloadInfo) (cs : List CtorInfo)
    (a b : ℕ) :
    ((∃ e, makeMethodFromOverloads name os a = .error e) ↔
      ∀ o ∈ os, supportedOverload o = false) ∧
    (∀ ms a1, makeMethodFromOverloads name os a = .ok (ms, a1) →
      name ≠ "valueOf" →
      ms = (buildMethods name (os.filter fun o => supportedOverload o) a).1) ∧
    ((∃ e, makeConstructor className cs b = .error e) ↔
      ∀ c ∈ cs, c.argTypeNames = none) := by
  rcases hbm : buildMethods name os a with ⟨methods, a1⟩
  refine ⟨?_, ?_, ?_⟩
  · constructor
    · rintro ⟨e, he⟩
      simp only [makeMethodFromOverloads, hbm] at he
      by_cases hm : methods.isEmpty
      · exact (buildMethods_eq_nil_iff name os a).mp
          (by rw [hbm]; exact List.isEmpty_iff.mp hm)
      · rw [if_neg hm] at he
        exact Except.noConfusion he
    · intro hall
      refine ⟨"No supported overloads", ?_⟩
      have hnil : methods = [] := by
        have h0 := (buildMethods_eq_nil_iff name os a).mpr hall
        rw [hbm] at h0
        exact h0
      simp [makeMethodFromOverloads, hbm, hnil]
  · intro ms a1' hok hne
    simp only [makeMethodFromOverloads, hbm] at hok
    by_cases hm : methods.isEmpty
    · rw [if_pos hm] at hok
      exact Except.noConfusion hok
    · rw [if_neg hm] at hok
      injection hok with h2
      injection h2 with hms ha
      rw [← hms]
      simp only [addDefaultValueOf]
      rw [if_neg hne, ← buildMethods_filter, hbm]
  · obtain ⟨dC, hC⟩ := getTypeFromJniTypename_total className b
    obtain ⟨dV, hV⟩ := getTypeFromJniTypename_total "void" (b + 1)
    rcases hbp : buildCtorPairs (basename className) dC dV cs (b + 1 + 1)
      with ⟨pairs, a2⟩
    constructor
    · rintro ⟨e, he⟩
      simp only [makeConstructor, hC, hV, hbp] at he
      by_cases hp : pairs.isEmpty
      · exact (buildCtorPairs_eq_nil_iff (basename className) dC dV cs
          (b + 1 + 1)).mp (by rw [hbp]; exact List.isEmpty_iff.mp hp)
      · rw [if_neg hp] at he
        exact Except.noConfusion he
    · intro hall
      refine ⟨"no supported overloads", ?_⟩
      have hnil : pairs = [] := by
        have h0 := (buildCtorPairs_eq_nil_iff (basename className) dC dV cs
          (b + 1 + 1)).mpr hall
        rw [hbp] at h0
        exact h0
      simp [makeConstructor, hC, hV, hbp, hnil]

/-- Witness for C10: with one unsupported and one supported overload of
`m`, resolution succeeds and the dispatcher is built from exactly the
supported one. -/
theorem unsupported_overloads_silently_omitted_witness :
    ∃ ms a1,
      makeMethodFromOverloads "m" [demoBadOverload, demoGoodOverload] 0 =
        .ok (ms, a1) ∧
      ms = (buildMethods "m"
        ([demoBadOverload, demoGoodOverload].filter
          fun o => supportedOverload o) 0).1 := by
  refine ⟨_, _, rfl, ?_⟩
  exact (unsupported_overloads_silently_omitted "m" "X"
    [demoBadOverload, demoGoodOverload] [] 0 0).2.1 _ _ rfl (by decide)

/-- **C1 (the code evaluated at the failing input).** `dispose` does *not*
restore a hooked-but-never-cleared method, contradicting the claim: with
one ART method hooked (trampoline installed at `jniCode`, wrapper id 1 in
`patchedMethods`), `dispose` returns with the method still in the
patched-method set and the method record still carrying the replacement
(`jniCode = 777`, not its pre-hook snapshot).  The restoration loop
`while (patchedMethods.length > 0)` reads the `length` property of a JS
`Set`, which is `undefined`, so the loop never executes. -/
theorem dispose_leaves_hooked_method_patched :
    ∃ s2, dispose demoApi demoVMState = .ok s2 ∧
      s2.patchedMethods = [1] ∧
      s2.mem 100 = 777 ∧
      fetchMethod demoApi.off s2.mem 100 ≠
        fetchMethod demoApi.off demoMem0 100 := by
  refine ⟨_, rfl, rfl, rfl, ?_⟩
  decide

end FridaJava
